import Mathlib

/-!
Verification development for the `dots` dotfiles manager.

Rust strings are modelled as `List Char` (`Str`), filesystem and network
effects as explicit oracle functions passed to the embedded operations.
Each embedded definition names the Rust item it was translated from.
-/

namespace Dots

/-- Rust `String` / `&str`, modelled as a list of characters. -/
abbrev Str := List Char

/-- Decidable equality for `Except`, used to evaluate the model on concrete
inputs. -/
instance instDecEqExcept {ε α : Type} [DecidableEq ε] [DecidableEq α] :
    DecidableEq (Except ε α) := fun a b =>
  match a, b with
  | .error e, .error f =>
    if h : e = f then isTrue (by rw [h]) else isFalse (fun hh => h (Except.error.inj hh))
  | .error _, .ok _ => isFalse Except.noConfusion
  | .ok _, .error _ => isFalse Except.noConfusion
  | .ok x, .ok y =>
    if h : x = y then isTrue (by rw [h]) else isFalse (fun hh => h (Except.ok.inj hh))

/-- Split a string at every occurrence of the character `c`
(model of the splitting underlying Rust `str::lines`).
The result is always non-empty. -/
def splitOnChar (c : Char) : Str → List Str
  | [] => [[]]
  | x :: xs =>
    match splitOnChar c xs with
    | [] => [[x]]
    | y :: ys => if x = c then [] :: y :: ys else (x :: y) :: ys

/-- Drop one trailing carriage return, as Rust `str::lines` does per line. -/
def stripCR (l : Str) : Str :=
  if l.getLast? = some '\r' then l.dropLast else l

/-- Model of Rust `str::lines`: split on newline characters; a single trailing
newline does not produce a final empty line; a trailing carriage return is
stripped from each line. `""` has no lines. -/
def rustLines (s : Str) : List Str :=
  if s = [] then []
  else
    let parts := splitOnChar '\n' s
    let parts := if s.getLast? = some '\n' then parts.dropLast else parts
    parts.map stripCR

/-- Model of Rust `Path::join` on slash-separated path strings:
joining an absolute path replaces the base; joining onto the empty path
yields the other path; otherwise the two are separated by a single slash. -/
def pathJoin (a b : Str) : Str :=
  if b.head? = some '/' then b
  else if a = [] then b
  else if a.getLast? = some '/' then a ++ b
  else a ++ '/' :: b

/-- Text after the first occurrence of `tok` in `s`
(model of Rust `s.find(tok)` combined with `s.get(pos + tok.len()..)`):
`none` when `tok` does not occur in `s`. -/
def afterFirst (tok : Str) : Str → Option Str
  | [] => if tok.isPrefixOf ([] : Str) then some [] else none
  | c :: rest =>
    if tok.isPrefixOf (c :: rest) then some (List.drop tok.length (c :: rest))
    else afterFirst tok rest

/-- Rust `str::contains` for a substring token, via `afterFirst`. -/
def containsTok (tok s : Str) : Bool :=
  (afterFirst tok s).isSome

/-! ## Path interpolation (`src/output_path.rs`, `OutputPath::from_str`) -/

/-- Platform base-directory strategy (the `etcetera::choose_base_strategy`
result): home, config, data and cache directories. -/
structure Strategy where
  home : Str
  config : Str
  data : Str
  cache : Str
deriving DecidableEq

/-- Substitution of one brace-delimited variable, from the `match` in
`OutputPath::from_str`: the three named base directories, `$NAME`
environment-variable lookup, and everything else (including an unset
environment variable) dropped (replaced with nothing). -/
def substVar (st : Strategy) (env : Str → Option Str) (v : Str) : Str :=
  if v = "data_dir".toList then st.data
  else if v = "config_dir".toList then st.config
  else if v = "cache_dir".toList then st.cache
  else if v.head? = some '$' then (env (v.drop 1)).getD []
  else []

/-- The character scan of `OutputPath::from_str`: outside braces characters are
copied; `\x7b` opens a variable collected until `\x7d` (an unterminated
variable consumes the rest of the string and is still substituted); the
substituted text is copied literally, not rescanned. The second argument is
`some buf` while inside a variable. -/
def interpScan (st : Strategy) (env : Str → Option Str) : Str → Option Str → Str
  | [], none => []
  | [], some v => substVar st env v
  | c :: rest, none =>
    if c = '{' then interpScan st env rest (some [])
    else c :: interpScan st env rest none
  | c :: rest, some v =>
    if c = '}' then substVar st env v ++ interpScan st env rest none
    else interpScan st env rest (some (v ++ [c]))

/-- Tilde expansion from `OutputPath::from_str`: a leading `~/` is replaced by
the strategy home directory joined with the remainder. -/
def tildeExpand (st : Strategy) (s : Str) : Str :=
  if "~/".toList.isPrefixOf s then pathJoin st.home (s.drop 2) else s

/-- Model of `OutputPath::from_str` after the base strategy has been obtained:
tilde expansion followed by the interpolation scan. Total: no syntactic
failure is possible. -/
def outputPathFromStr (st : Strategy) (env : Str → Option Str) (s : Str) : Str :=
  interpScan st env (tildeExpand st s) none

/-- Model of the full `OutputPath::from_str`, whose only fallible step is
obtaining the base-directory strategy (`etcetera::choose_base_strategy`);
`none` models an unavailable strategy. -/
def outputPathFromStrR (stOpt : Option Strategy) (env : Str → Option Str) (s : Str) :
    Except Str Str :=
  match stOpt with
  | none => .error "failed to obtain base strategy".toList
  | some st => .ok (outputPathFromStr st env s)

/-- A concrete base strategy used by witnesses and counterexamples. -/
def st0 : Strategy :=
  ⟨"/home/user".toList, "/home/user/.config".toList,
   "/home/user/.local/share".toList, "/home/user/.cache".toList⟩

/-- A concrete environment used by witnesses and counterexamples. -/
def env0 : Str → Option Str := fun n =>
  if n = "HOME".toList then some "/home/user".toList else none

/-! ## Marker protocol (`src/config.rs`, `Marker`) -/

/-- Lexer state of the shell-word splitter: outside any quote, inside single
quotes, inside double quotes, or the corresponding pending-backslash states. -/
inductive QS where
  | noq | single | double | noqEsc | doubleEsc
deriving DecidableEq

/-- The single-quote character. -/
def squote : Char := Char.ofNat 39

/-- The double-quote character. -/
def dquote : Char := Char.ofNat 34

/-- The backslash character. -/
def bslash : Char := Char.ofNat 92

/-- The backtick character. -/
def btick : Char := Char.ofNat 96

/-- Model of the `shellwords` crate's `split` (Ruby `Shellwords` semantics):
words separated by unquoted whitespace; single quotes quote literally; double
quotes allow backslash escapes; backslash outside quotes escapes the next
character; an unterminated quote is an error. `cur = some w` means a word is
currently open (so `\x27\x27` produces an empty word). -/
def shellGo (cur : Option Str) (q : QS) (acc : List Str) : Str → Except Str (List Str)
  | [] =>
    match q with
    | .noq => .ok (acc ++ cur.toList)
    | .noqEsc => .ok (acc ++ [cur.getD []])
    | _ => .error "mismatched quotes".toList
  | c :: rest =>
    match q with
    | .noq =>
      if c = squote then shellGo (some (cur.getD [])) .single acc rest
      else if c = dquote then shellGo (some (cur.getD [])) .double acc rest
      else if c = bslash then shellGo (some (cur.getD [])) .noqEsc acc rest
      else if c = ' ' ∨ c = '\t' ∨ c = '\n' then
        match cur with
        | some w => shellGo none .noq (acc ++ [w]) rest
        | none => shellGo none .noq acc rest
      else shellGo (some (cur.getD [] ++ [c])) .noq acc rest
    | .noqEsc => shellGo (some (cur.getD [] ++ [c])) .noq acc rest
    | .single =>
      if c = squote then shellGo cur .noq acc rest
      else shellGo (some (cur.getD [] ++ [c])) .single acc rest
    | .double =>
      if c = dquote then shellGo cur .noq acc rest
      else if c = bslash then shellGo cur .doubleEsc acc rest
      else shellGo (some (cur.getD [] ++ [c])) .double acc rest
    | .doubleEsc =>
      if c = dquote ∨ c = bslash ∨ c = '$' ∨ c = btick then
        shellGo (some (cur.getD [] ++ [c])) .double acc rest
      else shellGo (some (cur.getD [] ++ [bslash, c])) .double acc rest

/-- Model of `shellwords::split`. -/
def shellwordsSplit (s : Str) : Except Str (List Str) :=
  shellGo none .noq [] s

/-- The parsed `Marker` argument struct from `src/config.rs`: an optional
`--path` value, holding an already interpolated `OutputPath`. -/
structure MarkerArgs where
  path : Option Str
deriving DecidableEq

/-- Flag-matching loop of clap's derived parser for `Marker`: `--path` takes
the next word (or an inline `--path=` value) as an `OutputPath`, parsed with
`OutputPath::from_str`; a repeated `--path`, a missing value, or any other
word (clap's unexpected-argument, help and version cases alike) is a parse
error. -/
def clapGo (st : Strategy) (env : Str → Option Str) :
    List Str → Option Str → Except Str MarkerArgs
  | [], acc => .ok ⟨acc⟩
  | w :: rest, acc =>
    if w = "--path".toList then
      match rest with
      | [] => .error "a value is required for --path".toList
      | v :: rest2 =>
        if acc.isSome then .error "cannot be used multiple times".toList
        else clapGo st env rest2 (some (outputPathFromStr st env v))
    else if "--path=".toList.isPrefixOf w then
      if acc.isSome then .error "cannot be used multiple times".toList
      else clapGo st env rest (some (outputPathFromStr st env (w.drop 7)))
    else .error ("unexpected argument".toList ++ w)

/-- Model of clap's `Marker::try_parse_from`: per clap's documented contract
the first item of the iterator is consumed as the binary name and is not
parsed; the remaining words go through the flag matcher. -/
def Marker.tryParseFrom (st : Strategy) (env : Str → Option Str) (ws : List Str) :
    Except Str MarkerArgs :=
  clapGo st env (ws.drop 1) none

/-- Model of `Marker::from_str` (`src/config.rs` line 128):
`shellwords::split` then `Marker::try_parse_from`. -/
def Marker.fromStr (st : Strategy) (env : Str → Option Str) (s : Str) :
    Except Str MarkerArgs :=
  match shellwordsSplit s with
  | .error e => .error e
  | .ok ws => Marker.tryParseFrom st env ws

/-- The marker token `Marker::MARKER` (note the trailing space). -/
def markerTok : Str := "@dots ".toList

/-- The destination override extracted by the condition chain of
`Dir::process` (`src/config.rs` lines 164-171): first line of the contents,
text after the first occurrence of the marker token, parsed as `Marker`
arguments; `some dest` only when parsing succeeded and `--path` was present.
A missing token, a parse failure or an absent `--path` yield `none`. -/
def markerOverride (st : Strategy) (env : Str → Option Str)
    (firstLine : Option Str) : Option Str :=
  firstLine.bind fun l =>
    (afterFirst markerTok l).bind fun args =>
      match Marker.fromStr st env args with
      | .ok m => m.path
      | .error _ => none

/-- The pure routing core of `Dir::process` (`src/config.rs` lines 164-185):
given the `Dir` output, the root-relative location of the file and its raw
contents, produce the emitted contents and the destination. With a `--path`
override the remaining lines are joined with a comma (line 174) and the
override is the destination; otherwise the contents pass through unchanged
and the destination is the output joined with the relative location. -/
def Dir.route (st : Strategy) (env : Str → Option Str)
    (output relLoc contents : Str) : Str × Str :=
  match markerOverride st env (rustLines contents).head? with
  | some p => (List.intercalate ",".toList ((rustLines contents).drop 1), p)
  | none => (contents, pathJoin output relLoc)

/-- String model of `Path::strip_prefix` on slash-separated paths without
trailing separators: the prefix is stripped component-wise. -/
def stripPrefixP (root p : Str) : Option Str :=
  if root = p then some []
  else if (root ++ ['/']).isPrefixOf p then some (p.drop (root.length + 1))
  else none

/-- Routing of `Dir::process` including the computation of
`relative_location` by `old_location.strip_prefix(root)` (`src/config.rs`
lines 156-162), whose failure aborts the processing of this file. -/
def Dir.routeAt (st : Strategy) (env : Str → Option Str)
    (root old output contents : Str) : Except Str (Str × Str) :=
  match stripPrefixP root old with
  | none => .error ("failed to strip prefix ".toList ++ root)
  | some rel => .ok (Dir.route st env output rel contents)

/-! ## Link processing (`src/config.rs`, `Link`) -/

/-- A `link` declaration of the manifest (`src/config.rs`, `struct Link`). -/
structure LinkDecl where
  url : Str
  path : Str
  sha256 : Option Str
  marker : Option Str
deriving DecidableEq

/-- Failure of processing one link (`Link::process`): the `ureq` fetch error
propagated by `?`, or the distinct `hash mismatch` failure built by the
`bail!` at `src/config.rs` line 274, which carries the URL and both digests. -/
inductive LinkErr where
  | fetch (url msg : Str)
  | hashMismatch (url expected actual : Str)
deriving DecidableEq

/-- Fetch-and-verify prefix of `Link::process` (`src/config.rs` lines
265-275). `fetchF` is the network oracle (`ureq::get(url).call()` plus body
read); `digest` is the `sha256::digest` function of the `sha256` crate. The
digest of the fetched contents is computed and, when the declaration carries
an expected `sha256`, compared against it; a difference is the distinct
hash-mismatch failure. -/
def Link.fetchCheck (fetchF : Str → Except Str Str) (digest : Str → Str)
    (l : LinkDecl) : Except LinkErr Str :=
  match fetchF l.url with
  | .error e => .error (.fetch l.url e)
  | .ok contents =>
    match l.sha256 with
    | some expected =>
      if digest contents ≠ expected then
        .error (.hashMismatch l.url expected (digest contents))
      else .ok contents
    | none => .ok contents

/-- Error side of the link stage of `Config::process` (`src/config.rs` lines
71-78): every declared link is mapped through its own processing and
`partition_result` collects the errors of all failing links, each of which is
then logged. -/
def Config.processLinksErrors (fetchF : Str → Except Str Str) (digest : Str → Str)
    (links : List LinkDecl) : List LinkErr :=
  links.filterMap fun l =>
    match Link.fetchCheck fetchF digest l with
    | .error e => some e
    | .ok _ => none

/-- The four generated-file banner lines of `Link::process` (`src/config.rs`
lines 307-312). -/
def bannerLines (url : Str) : List Str :=
  [("@generated by ".toList ++ [btick] ++ markerTok ++ [btick]),
   "Do not edit by hand.".toList,
   [],
   ("downloaded from: ".toList ++ url)]

/-- Contents written by `Link::process` (`src/config.rs` lines 278-319).
`comment` is the `commented::comment` oracle for the destination path: it
wraps one line in that path's comment syntax. A declared `marker` argument is
prepended as a comment line containing the marker token; the first line is
then split back off (when it contains the token), the banner comment lines
are inserted after it, and the remaining body follows. -/
def Link.writtenContents (comment : Str → Str) (markerField : Option Str)
    (url fetched : Str) : Str :=
  let markerPre : Str :=
    match markerField with
    | none => []
    | some v => comment (markerTok ++ v) ++ ['\n']
  let contents := markerPre ++ fetched
  let firstL := (rustLines contents).head?
  let markerLine : Str :=
    match firstL with
    | some l => if containsTok markerTok l then l ++ ['\n'] else []
    | none => []
  let body : Str :=
    match firstL with
    | some l =>
      if containsTok markerTok l then
        List.intercalate ['\n'] ((rustLines contents).drop 1)
      else contents
    | none => contents
  let headerC := (bannerLines url).foldl (fun acc line => acc ++ comment line ++ ['\n']) []
  markerLine ++ headerC ++ body

/-! ## Gathering (`src/world.rs`, `World::new`) -/

/-- A `dir` declaration as consumed by `World::new` (`src/world.rs` line
121): an input directory and an interpolated output path. -/
structure DirDecl where
  input : Str
  output : Str
deriving DecidableEq

/-- One entry yielded by the recursive `WalkDir` traversal: its path and
whether it is a regular file. -/
structure WEntry where
  path : Str
  isFile : Bool
deriving DecidableEq

/-- A successfully fetched link (`src/world.rs`, `struct Link`). -/
structure GLink where
  url : Str
  contents : Str
  path : Str
  sha256 : Option Str
  marker : Option Str
deriving DecidableEq

/-- A successfully gathered file (`src/world.rs`, `struct File`). -/
structure GFile where
  oldLocation : Str
  contents : Str
  output : Str
  input : Str
deriving DecidableEq

/-- The gathered world (`src/world.rs`, `struct World`). -/
structure World where
  root : Str
  links : List GLink
  files : List GFile
deriving DecidableEq

/-- Error side of an `Except`. -/
def errSide {ε α : Type} : Except ε α → Option ε
  | .error e => some e
  | .ok _ => none

/-- Ok side of an `Except`. -/
def okSide {ε α : Type} : Except ε α → Option α
  | .error _ => none
  | .ok a => some a

/-- Fetch of one declared link during gathering (`src/world.rs` lines
96-111): the body read at the URL becomes the `contents` of the gathered
link; a fetch failure is this link's error. -/
def fetchLink (fetchF : Str → Except Str Str) (l : LinkDecl) : Except Str GLink :=
  match fetchF l.url with
  | .error e => .error e
  | .ok c => .ok ⟨l.url, c, l.path, l.sha256, l.marker⟩

/-- The regular files yielded by walking one declared directory
(`src/world.rs` lines 122-125): `WalkDir::new(root.join(input))`, with the
`.flatten()` dropping every walk error, then the `is_file` filter. -/
def walkedFiles (walk : Str → List (Except Str WEntry)) (root : Str)
    (d : DirDecl) : List WEntry :=
  ((walk (pathJoin root d.input)).filterMap okSide).filter (·.isFile)

/-- Gathering of one walked file (`src/world.rs` lines 126-139): resolve the
absolute location (`path::absolute`, oracle `absF`), read the contents
(oracle `readF`), and pair them with the owning directory's output and
input; either step's failure is this file's error. -/
def gatherFile (absF readF : Str → Except Str Str) (d : DirDecl)
    (e : WEntry) : Except Str GFile :=
  match absF e.path with
  | .error er => .error er
  | .ok old =>
    match readF old with
    | .error er => .error ("failed to read path ".toList ++ old ++ ": ".toList ++ er)
    | .ok c => .ok ⟨old, c, d.output, d.input⟩

/-- Model of `World::new` from the point where the parsed config is in hand
(`src/world.rs` lines 91-157): every link is fetched and every walked file is
read, each independently; the errors of both stages are accumulated in order
(`partition_result` keeps order); a non-empty error list is returned instead
of a world, otherwise the world carries the root and every gathered link and
file. -/
def World.new (fetchF : Str → Except Str Str)
    (walk : Str → List (Except Str WEntry)) (absF readF : Str → Except Str Str)
    (root : Str) (links : List LinkDecl) (dirs : List DirDecl) :
    Except (List Str) World :=
  let lres := links.map (fetchLink fetchF)
  let lerrs := lres.filterMap errSide
  let loks := lres.filterMap okSide
  let fres := dirs.flatMap fun d => (walkedFiles walk root d).map (gatherFile absF readF d)
  let ferrs := fres.filterMap errSide
  let foks := fres.filterMap okSide
  let errors := lerrs ++ ferrs
  if errors.isEmpty then .ok ⟨root, loks, foks⟩ else .error errors

/-! ## Application (`src/main.rs` lines 46-71 and `src/io/analysis.rs`) -/

/-- A planned write (`src/io/analysis.rs`, `struct WritePath`). -/
structure WritePath where
  path : Str
  contents : Str
deriving DecidableEq

/-- Outcome of `fs::remove_file`: success, the not-found case that both
appliers fold into success, or another error. -/
inductive RemoveRes where
  | ok | notFound | err (e : Str)
deriving DecidableEq

/-- Filesystem oracles used by the appliers: `fs::remove_file`,
`Path::parent`, `fs::create_dir_all` and `fs::write`. -/
structure FsO where
  removeF : Str → RemoveRes
  parentF : Str → Option Str
  createDirF : Str → Except Str Unit
  writeF : Str → Str → Except Str Unit

/-- One iteration of the apply loop in `main` (`src/main.rs` lines 46-69):
remove the old file (not-found folded to success), obtain the parent
directory, create it, write the contents; each step's failure is propagated
immediately by `?` with its context message. -/
def applyWrite (o : FsO) (w : WritePath) : Except Str Unit :=
  match o.removeF w.path with
  | .err _ => .error ("failed to remove file: ".toList ++ w.path)
  | _ =>
    match o.parentF w.path with
    | none => .error ("failed to obtain parent of ".toList ++ w.path)
    | some dir =>
      match o.createDirF dir with
      | .error _ => .error ("failed to create directory for ".toList ++ dir)
      | .ok _ =>
        match o.writeF w.path w.contents with
        | .error _ => .error ("failed to write to ".toList ++ w.path)
        | .ok _ => .ok ()

/-- The apply loop of `main` (`src/main.rs` lines 46-69): the writes are
applied in order inside a `for` loop whose body ends every fallible step
with `?`, so the loop stops at the first failing write. -/
def mainApply (o : FsO) : List WritePath → Except Str Unit
  | [] => .ok ()
  | w :: ws =>
    match applyWrite o w with
    | .error e => .error e
    | .ok _ => mainApply o ws

/-- Errors logged for one write by `Analysis::finish` (`src/io/analysis.rs`
lines 29-58): a remove failure or a missing parent skips the rest of this
write via `continue`; a `create_dir_all` failure is logged but the write is
still attempted; a write failure is logged. -/
def finishWrite (o : FsO) (w : WritePath) : List Str :=
  match o.removeF w.path with
  | .err _ => [("failed to remove file ".toList ++ w.path)]
  | _ =>
    match o.parentF w.path with
    | none => [("failed to obtain parent of ".toList ++ w.path)]
    | some dir =>
      (match o.createDirF dir with
       | .error _ => [("failed to create directory for ".toList ++ dir)]
       | .ok _ => []) ++
      (match o.writeF w.path w.contents with
       | .error _ => [("failed to write to ".toList ++ w.path)]
       | .ok _ => [])

/-- The loop of `Analysis::finish`: every write is processed regardless of
the failures of its siblings, each contributing its own logged errors. -/
def analysisFinish (o : FsO) (ws : List WritePath) : List Str :=
  ws.flatMap (finishWrite o)

/-! ## Lemmas about the interpolation scan -/

/-- Inside a variable, the scan accumulates every character up to the first
closing brace into the variable name and then substitutes it. -/
lemma interpScan_var (st : Strategy) (env : Str → Option Str) :
    ∀ (name v rest : Str), '}' ∉ name →
      interpScan st env (name ++ '}' :: rest) (some v)
        = substVar st env (v ++ name) ++ interpScan st env rest none := by
  intro name
  induction name with
  | nil =>
    intro v rest _
    simp [interpScan]
  | cons c cs ih =>
    intro v rest h
    have hc : c ≠ '}' := fun hcc => h (hcc ▸ List.mem_cons_self c cs)
    have hcs : '}' ∉ cs := fun hm => h (List.mem_cons_of_mem c hm)
    simp only [List.cons_append, interpScan, if_neg hc]
    show interpScan st env (cs ++ '}' :: rest) (some (v ++ [c])) = _
    rw [ih (v ++ [c]) rest hcs, List.append_assoc]
    simp

/-- Opening a brace-delimited variable from outside: the token is replaced by
its substitution and the scan continues on the rest. -/
lemma interpScan_open (st : Strategy) (env : Str → Option Str)
    (v rest : Str) (h : '}' ∉ v) :
    interpScan st env ('{' :: (v ++ '}' :: rest)) none
      = substVar st env v ++ interpScan st env rest none := by
  have := interpScan_var st env v [] rest h
  simpa [interpScan] using this

/-- A string that starts with an opening brace is not tilde-expanded. -/
lemma tildeExpand_brace (st : Strategy) (l : Str) :
    tildeExpand st ('{' :: l) = '{' :: l := by
  simp [tildeExpand, List.isPrefixOf]

/-- C6. Path interpolation never fails for syntactic reasons (it fails
exactly when the platform base-directory strategy is unavailable), and it
follows the substitution table of `OutputPath::from_str`: a leading `~/`
becomes the home directory joined with the remainder (then scanned);
`config_dir`, `data_dir` and `cache_dir` tokens become the strategy's
config, data and cache directories; a `$NAME` token becomes the value of
the environment variable `NAME`; an unknown identifier or an unset
environment variable is dropped (replaced with nothing) while the scan
continues on the rest of the string. -/
theorem outputPath_interpolation_table (st : Strategy) (env : Str → Option Str) :
    (∀ stOpt s, (outputPathFromStrR stOpt env s).isOk = true ↔ stOpt.isSome = true)
  ∧ (∀ r, outputPathFromStr st env ('~' :: '/' :: r)
        = interpScan st env (pathJoin st.home r) none)
  ∧ outputPathFromStr st env "\x7bconfig_dir\x7d".toList = st.config
  ∧ outputPathFromStr st env "\x7bdata_dir\x7d".toList = st.data
  ∧ outputPathFromStr st env "\x7bcache_dir\x7d".toList = st.cache
  ∧ (∀ name rest, '}' ∉ name →
      outputPathFromStr st env ('{' :: '$' :: (name ++ '}' :: rest))
        = (env name).getD [] ++ interpScan st env rest none)
  ∧ (∀ v rest, '}' ∉ v → v ≠ "data_dir".toList → v ≠ "config_dir".toList →
      v ≠ "cache_dir".toList → v.head? ≠ some '$' →
      outputPathFromStr st env ('{' :: (v ++ '}' :: rest))
        = interpScan st env rest none) := by
  refine ⟨?_, ?_, ?_, ?_, ?_, ?_, ?_⟩
  · intro stOpt s
    cases stOpt <;> simp [outputPathFromStrR, Except.isOk, Except.toBool]
  · intro r
    simp [outputPathFromStr, tildeExpand, List.isPrefixOf]
  · show interpScan st env (tildeExpand st ('{' :: ("config_dir".toList ++ '}' :: []))) none = _
    rw [tildeExpand_brace, interpScan_open st env _ _ (by decide)]
    simp [substVar, interpScan]
  · show interpScan st env (tildeExpand st ('{' :: ("data_dir".toList ++ '}' :: []))) none = _
    rw [tildeExpand_brace, interpScan_open st env _ _ (by decide)]
    simp [substVar, interpScan]
  · show interpScan st env (tildeExpand st ('{' :: ("cache_dir".toList ++ '}' :: []))) none = _
    rw [tildeExpand_brace, interpScan_open st env _ _ (by decide)]
    simp [substVar, interpScan]
  · intro name rest h
    have h2 : '}' ∉ '$' :: name := by
      intro hm
      rcases List.mem_cons.mp hm with h1 | h1
      · exact absurd h1 (by decide)
      · exact h h1
    have hne : ∀ w : Str, w.head? ≠ some '$' → ('$' :: name) ≠ w := by
      intro w hw hx
      have hh : ('$' :: name).head? = some '$' := rfl
      rw [hx] at hh
      exact hw hh
    show interpScan st env (tildeExpand st ('{' :: (('$' :: name) ++ '}' :: rest))) none = _
    rw [tildeExpand_brace, interpScan_open st env _ _ h2]
    rw [substVar,
        if_neg (hne _ (by decide)),
        if_neg (hne _ (by decide)),
        if_neg (hne _ (by decide))]
    simp
  · intro v rest h hd hc hca hdol
    show interpScan st env (tildeExpand st ('{' :: (v ++ '}' :: rest))) none = _
    rw [tildeExpand_brace, interpScan_open st env _ _ h]
    rw [substVar, if_neg hd, if_neg hc, if_neg hca, if_neg hdol]
    simp

/-- Witness for C6: on the concrete strategy `st0` and environment `env0`,
a set `$HOME` token resolves to the environment value and an unknown
identifier token is dropped without failing. -/
theorem outputPath_interpolation_table_witness :
    outputPathFromStr st0 env0 ('{' :: '$' :: ("HOME".toList ++ '}' :: [])) = "/home/user".toList
  ∧ outputPathFromStr st0 env0 ('{' :: ("nonexistent_var".toList ++ '}' :: [])) = [] := by
  refine ⟨?_, ?_⟩
  · exact ((outputPath_interpolation_table st0 env0).2.2.2.2.2.1
      "HOME".toList [] (by decide)).trans (by decide)
  · exact ((outputPath_interpolation_table st0 env0).2.2.2.2.2.2
      "nonexistent_var".toList [] (by decide) (by decide) (by decide) (by decide)
      (by decide)).trans (by decide)

/-- C1 (code bug). The manifest template `\x7bconfig\x7d` used by the
repository's own end-to-end test (`tests/lib.rs`, `it_works`) and by the
`OutputPath` doc comment is not one of the identifiers known to
`OutputPath::from_str` (which knows only `config_dir`, `data_dir` and
`cache_dir`): the token is dropped, the declared output resolves to the
empty path, and a write of `foo.txt` would be planned at the bare relative
path `foo.txt` instead of the platform config directory joined with
`foo.txt`. -/
theorem config_token_dropped :
    outputPathFromStr st0 env0 "\x7bconfig\x7d".toList = []
  ∧ pathJoin (outputPathFromStr st0 env0 "\x7bconfig\x7d".toList) "foo.txt".toList
      = "foo.txt".toList
  ∧ st0.config = "/home/user/.config".toList
  ∧ pathJoin st0.config "foo.txt".toList = "/home/user/.config/foo.txt".toList
  ∧ "foo.txt".toList ≠ "/home/user/.config/foo.txt".toList := by
  decide

/-- C2. A declared link carrying a `sha256` whose fetched content digests to
a different value fails with the distinct hash-mismatch error carrying the
URL, the expected digest and the actual digest; that error is an element of
the accumulated error list of the link stage, it is a different error from
any fetch failure, and every other failing link's error is also in the list
(every link is attempted independently). -/
theorem link_hash_mismatch_reported (fetchF : Str → Except Str Str)
    (digest : Str → Str) (links : List LinkDecl) (l : LinkDecl)
    (exp b : Str) (hmem : l ∈ links) (hsha : l.sha256 = some exp)
    (hf : fetchF l.url = .ok b) (hne : digest b ≠ exp) :
    Link.fetchCheck fetchF digest l = .error (.hashMismatch l.url exp (digest b))
  ∧ LinkErr.hashMismatch l.url exp (digest b) ∈ Config.processLinksErrors fetchF digest links
  ∧ (∀ u e, LinkErr.hashMismatch l.url exp (digest b) ≠ LinkErr.fetch u e)
  ∧ (∀ l2 ∈ links, ∀ er, Link.fetchCheck fetchF digest l2 = .error er →
      er ∈ Config.processLinksErrors fetchF digest links) := by
  have hcheck : Link.fetchCheck fetchF digest l
      = .error (.hashMismatch l.url exp (digest b)) := by
    simp only [Link.fetchCheck, hf, hsha]
    rw [if_pos hne]
  refine ⟨hcheck, ?_, ?_, ?_⟩
  · exact List.mem_filterMap.mpr ⟨l, hmem, by rw [hcheck]⟩
  · intro u e hx
    exact LinkErr.noConfusion hx
  · intro l2 h2 er herr
    exact List.mem_filterMap.mpr ⟨l2, h2, by rw [herr]⟩

/-- A toy digest function used by witnesses: prepends a constant tag. -/
def digest0 : Str → Str := fun s => "deadbeef-".toList ++ s

/-- A concrete network oracle used by witnesses: one URL succeeds, all
others fail. -/
def fetch0 : Str → Except Str Str := fun u =>
  if u = "https://a".toList then .ok "body".toList
  else .error "connection refused".toList

/-- A link declaring a wrong expected digest. -/
def la0 : LinkDecl := ⟨"https://a".toList, "a.txt".toList, some "0000".toList, none⟩

/-- A link whose fetch fails. -/
def lb0 : LinkDecl := ⟨"https://b".toList, "b.txt".toList, none, none⟩

/-- Witness for C2: on a concrete two-link manifest, the hash-mismatch error
of the first link and the fetch error of the second are both in the
accumulated error list. -/
theorem link_hash_mismatch_reported_witness :
    LinkErr.hashMismatch "https://a".toList "0000".toList (digest0 "body".toList)
      ∈ Config.processLinksErrors fetch0 digest0 [la0, lb0]
  ∧ LinkErr.fetch "https://b".toList "connection refused".toList
      ∈ Config.processLinksErrors fetch0 digest0 [la0, lb0] := by
  have h := link_hash_mismatch_reported fetch0 digest0 [la0, lb0] la0
    "0000".toList "body".toList (by decide) (by decide) (by decide) (by decide)
  refine ⟨h.2.1, ?_⟩
  exact h.2.2.2 lb0 (by decide) _ (by decide)

/-- C9. Marker extraction recognizes the token at any position of the first
line, not only as a prefix: when the first line is any `@`-free prefix
followed by the token and a remainder, the remainder (the text after the
first occurrence of the token) is what gets parsed as the argument list, so
comment-wrapped injected markers are recognized. -/
theorem marker_token_any_position (st : Strategy) (env : Str → Option Str)
    (p r : Str) (hp : '@' ∉ p) :
    afterFirst markerTok (p ++ (markerTok ++ r)) = some r
  ∧ markerOverride st env (some (p ++ (markerTok ++ r)))
      = (match Marker.fromStr st env r with
         | .ok m => m.path
         | .error _ => none) := by
  have hfind : afterFirst markerTok (p ++ (markerTok ++ r)) = some r := by
    induction p with
    | nil =>
      have hpre : markerTok.isPrefixOf (markerTok ++ r) = true :=
        List.isPrefixOf_iff_prefix.mpr (List.prefix_append _ _)
      show afterFirst markerTok ('@' :: ("dots ".toList ++ r)) = some r
      rw [afterFirst, if_pos (by exact hpre)]
      show some (List.drop markerTok.length (markerTok ++ r)) = some r
      rw [show markerTok.length = markerTok.length from rfl, List.drop_left]
    | cons c cs ih =>
      have hc : c ≠ '@' := fun hcc => hp (hcc ▸ List.mem_cons_self c cs)
      have hcs : '@' ∉ cs := fun hm => hp (List.mem_cons_of_mem c hm)
      show afterFirst markerTok (c :: (cs ++ (markerTok ++ r))) = some r
      rw [afterFirst]
      rw [if_neg ?_]
      · exact ih hcs
      · show ¬markerTok.isPrefixOf (c :: (cs ++ (markerTok ++ r))) = true
        intro hpre
        have : ('@' :: "dots ".toList).isPrefixOf (c :: (cs ++ (markerTok ++ r))) = true := hpre
        rw [List.isPrefixOf] at this
        have h1 := (Bool.and_eq_true _ _).mp this
        exact hc (Eq.symm (by simpa using h1.1))
  refine ⟨hfind, ?_⟩
  simp only [markerOverride, Option.bind, hfind]

/-- Witness for C9: a marker wrapped in a `#` comment opener is recognized
and its `--path` value becomes the override. -/
theorem marker_token_any_position_witness :
    markerOverride st0 env0 (some ("# ".toList ++ (markerTok ++ "x --path /out/f".toList)))
      = some "/out/f".toList := by
  have h := (marker_token_any_position st0 env0 "# ".toList "x --path /out/f".toList
    (by decide)).2
  exact h.trans (by decide)

/-- Filesystem oracle on which every removal fails. -/
def fsO0 : FsO :=
  ⟨fun _ => .err "permission denied".toList, fun _ => some "/d".toList,
   fun _ => .ok (), fun _ _ => .ok ()⟩

/-- Filesystem oracle on which only the removal of `/d/b` fails. -/
def fsO1 : FsO :=
  ⟨fun p => if p = "/d/b".toList then .err "denied".toList else .ok,
   fun _ => some "/d".toList, fun _ => .ok (), fun _ _ => .ok ()⟩

/-- First concrete planned write. -/
def wa0 : WritePath := ⟨"/d/a".toList, "A".toList⟩

/-- Second concrete planned write. -/
def wb0 : WritePath := ⟨"/d/b".toList, "B".toList⟩

/-- Third concrete planned write. -/
def wc0 : WritePath := ⟨"/d/c".toList, "C".toList⟩

/-- Counterexample to C7: when applying two writes whose removals both fail,
the apply loop of `main` stops at the first failure — the result is the
first write's single error and is identical to applying the first write
alone, so the second write is never attempted and its failure is not
reported; the unused `Analysis::finish` loop, by contrast, reports both. -/
theorem mainApply_short_circuit_cex :
    mainApply fsO0 [wa0, wb0] = .error ("failed to remove file: /d/a".toList)
  ∧ mainApply fsO0 [wa0, wb0] = mainApply fsO0 [wa0]
  ∧ analysisFinish fsO0 [wa0, wb0]
      = ["failed to remove file /d/a".toList, "failed to remove file /d/b".toList] := by
  decide

/-- C7 (amended). During application by `main`, the writes are attempted in
order and the first per-write failure aborts the loop with that write's
error, skipping all remaining writes; only the separate `Analysis::finish`
loop (not called by `main`) attempts every write regardless of siblings,
each contributing its own errors. -/
theorem mainApply_first_failure_aborts (o : FsO) (ws1 ws2 : List WritePath)
    (w : WritePath) (e : Str) (h1 : ∀ v ∈ ws1, applyWrite o v = .ok ())
    (h2 : applyWrite o w = .error e) :
    mainApply o (ws1 ++ w :: ws2) = .error e
  ∧ analysisFinish o (ws1 ++ w :: ws2)
      = analysisFinish o ws1 ++ finishWrite o w ++ analysisFinish o ws2 := by
  constructor
  · induction ws1 with
    | nil =>
      simp only [List.nil_append, mainApply, h2]
    | cons v vs ih =>
      have hv := h1 v (List.mem_cons_self v vs)
      show mainApply o (v :: (vs ++ w :: ws2)) = .error e
      rw [mainApply, hv]
      exact ih (fun x hx => h1 x (List.mem_cons_of_mem v hx))
  · simp [analysisFinish, List.flatMap_append]

/-- Witness for C7 (amended): with a removal failure only on the middle
write, applying three writes stops at the middle one with its error. -/
theorem mainApply_first_failure_aborts_witness :
    mainApply fsO1 ([wa0] ++ wb0 :: [wc0]) = .error ("failed to remove file: /d/b".toList) :=
  (mainApply_first_failure_aborts fsO1 [wa0] [wc0] wb0
    ("failed to remove file: /d/b".toList) (by decide) (by decide)).1

/-- C3 (code bug). A gathered file whose first line carries a parsing marker
directive with a `--path` argument is routed to the directive's interpolated
path, but the emitted content joins the remaining lines with a comma
(`join(",")` at `src/config.rs` line 174) instead of a newline: for the
three-line input the emitted content is `line a,line b`, not the
newline-separated remainder that the claim (and the sibling `join`
at line 302) requires. -/
theorem marker_strip_comma_join :
    Dir.route st0 env0 "/o".toList "rel".toList
        "@dots x --path /out/f\nline a\nline b".toList
      = ("line a,line b".toList, "/out/f".toList)
  ∧ "line a,line b".toList ≠ "line a\nline b".toList := by
  decide

/-- Comment oracle of the witnesses: line comments opened with a hash sign
(the `commented::comment` convention for hash-commented files). -/
def hashComment : Str → Str := fun s => "# ".toList ++ s

/-- The marker argument configured on the round-trip link. -/
def c8marker : Str := "--path /out/theme.ron".toList

/-- The file contents written by `Link::process` for the round-trip link. -/
def c8written : Str :=
  Link.writtenContents hashComment (some c8marker)
    "https://example.com/t".toList "body line".toList

/-- C8 (code bug). The file written for a link carrying a marker argument
does start with the injected comment line containing the marker token and
its arguments, but re-gathering it does not route it to the marker's
declared path: `Marker::try_parse_from` consumes the first shell word
(`--path`) as the binary name, so the documented `--path <value>` form
never parses, the directive is dropped by the lenient fallback, and the
file is routed to its default destination with its content (marker line
included) unchanged. -/
theorem link_marker_roundtrip_fails :
    (rustLines c8written).head? = some ("# @dots --path /out/theme.ron".toList)
  ∧ afterFirst markerTok ("# @dots --path /out/theme.ron".toList) = some c8marker
  ∧ (Marker.fromStr st0 env0 c8marker).isOk = false
  ∧ Dir.route st0 env0 "/def".toList "cfg/t.ron".toList c8written
      = (c8written, pathJoin "/def".toList "cfg/t.ron".toList)
  ∧ pathJoin "/def".toList "cfg/t.ron".toList ≠ "/out/theme.ron".toList := by
  decide

/-- Counterexample to C10: a first line whose marker arguments parse
successfully with no `--path` routes the file to the `Dir` output joined
with the file's root-relative location `configs/foo.txt` — which retains
the input directory component — not with the input-relative `foo.txt`
stated by the claim. -/
theorem marker_no_path_root_relative_cex :
    Marker.fromStr st0 env0 ([] : Str) = .ok ⟨none⟩
  ∧ Dir.routeAt st0 env0 "/r".toList "/r/configs/foo.txt".toList "/out".toList
        "# @dots \nbody".toList
      = .ok ("# @dots \nbody".toList, "/out/configs/foo.txt".toList)
  ∧ "/out/configs/foo.txt".toList ≠ pathJoin "/out".toList "foo.txt".toList := by
  decide

/-- C10 (amended). A gathered file whose first line contains the marker
token and whose arguments parse successfully with no `--path` option gets no
destination override: it is routed to the `Dir` output joined with its
root-relative location (which retains the input directory components), and
its content is passed through with the marker line retained. -/
theorem marker_no_path_default_route (st : Strategy) (env : Str → Option Str)
    (output root old contents rel l args : Str)
    (hstrip : stripPrefixP root old = some rel)
    (hline : (rustLines contents).head? = some l)
    (hargs : afterFirst markerTok l = some args)
    (hok : Marker.fromStr st env args = .ok ⟨none⟩) :
    Dir.routeAt st env root old output contents
      = .ok (contents, pathJoin output rel) := by
  have hov : markerOverride st env (rustLines contents).head? = none := by
    rw [hline]
    simp only [markerOverride, Option.bind, hargs, hok]
  unfold Dir.routeAt
  rw [hstrip]
  unfold Dir.route
  rw [hov]

/-- Witness for C10 (amended): a concrete hash-commented marker line with
empty arguments parses with no path and the file keeps its content and its
default (root-relative) destination. -/
theorem marker_no_path_default_route_witness :
    Dir.routeAt st0 env0 "/m".toList "/m/cfg/a.txt".toList "/dst".toList
        "# @dots \nkeep".toList
      = .ok ("# @dots \nkeep".toList, pathJoin "/dst".toList "cfg/a.txt".toList) :=
  marker_no_path_default_route st0 env0 "/dst".toList "/m".toList
    "/m/cfg/a.txt".toList "# @dots \nkeep".toList "cfg/a.txt".toList
    "# @dots ".toList ([] : Str) (by decide) (by decide) (by decide) (by decide)

/-! ## Lemmas about `World::new` -/

/-- Error case of `World::new`: the returned list is exactly the link-stage
errors followed by the file-stage errors. -/
lemma worldNew_error_eq (fetchF : Str → Except Str Str)
    (walk : Str → List (Except Str WEntry)) (absF readF : Str → Except Str Str)
    (root : Str) (links : List LinkDecl) (dirs : List DirDecl) (es : List Str)
    (hw : World.new fetchF walk absF readF root links dirs = .error es) :
    es = (links.map (fetchLink fetchF)).filterMap errSide
      ++ (dirs.flatMap fun d =>
            (walkedFiles walk root d).map (gatherFile absF readF d)).filterMap errSide := by
  unfold World.new at hw
  dsimp only at hw
  split at hw
  · exact absurd hw (by simp)
  · exact (Except.error.inj hw).symm

/-- Ok case of `World::new`: both error lists are empty and the world
carries the root and the two filtered success lists. -/
lemma worldNew_ok_eq (fetchF : Str → Except Str Str)
    (walk : Str → List (Except Str WEntry)) (absF readF : Str → Except Str Str)
    (root : Str) (links : List LinkDecl) (dirs : List DirDecl) (wd : World)
    (hw : World.new fetchF walk absF readF root links dirs = .ok wd) :
    wd = ⟨root, (links.map (fetchLink fetchF)).filterMap okSide,
          (dirs.flatMap fun d =>
            (walkedFiles walk root d).map (gatherFile absF readF d)).filterMap okSide⟩
  ∧ (links.map (fetchLink fetchF)).filterMap errSide = []
  ∧ (dirs.flatMap fun d =>
      (walkedFiles walk root d).map (gatherFile absF readF d)).filterMap errSide = [] := by
  unfold World.new at hw
  dsimp only at hw
  split at hw
  next h =>
    have h2 := List.isEmpty_iff.mp h
    have h3 := List.append_eq_nil.mp h2
    exact ⟨(Except.ok.inj hw).symm, h3.1, h3.2⟩
  next h => exact absurd hw (by simp)

/-- Membership of a failing link's error in the error list of `World::new`. -/
lemma worldNew_link_err_mem (fetchF : Str → Except Str Str)
    (walk : Str → List (Except Str WEntry)) (absF readF : Str → Except Str Str)
    (root : Str) (links : List LinkDecl) (dirs : List DirDecl) (es : List Str)
    (l : LinkDecl) (er : Str)
    (hw : World.new fetchF walk absF readF root links dirs = .error es)
    (hl : l ∈ links) (her : fetchLink fetchF l = .error er) : er ∈ es := by
  rw [worldNew_error_eq fetchF walk absF readF root links dirs es hw]
  refine List.mem_append_left _ (List.mem_filterMap.mpr ?_)
  exact ⟨fetchLink fetchF l, List.mem_map.mpr ⟨l, hl, rfl⟩, by rw [her]; rfl⟩

/-- Membership of a failing file's error in the error list of `World::new`. -/
lemma worldNew_file_err_mem (fetchF : Str → Except Str Str)
    (walk : Str → List (Except Str WEntry)) (absF readF : Str → Except Str Str)
    (root : Str) (links : List LinkDecl) (dirs : List DirDecl) (es : List Str)
    (d : DirDecl) (e : WEntry) (er : Str)
    (hw : World.new fetchF walk absF readF root links dirs = .error es)
    (hd : d ∈ dirs) (he : e ∈ walkedFiles walk root d)
    (her : gatherFile absF readF d e = .error er) : er ∈ es := by
  rw [worldNew_error_eq fetchF walk absF readF root links dirs es hw]
  refine List.mem_append_right _ (List.mem_filterMap.mpr ?_)
  refine ⟨gatherFile absF readF d e, List.mem_flatMap.mpr ?_, by rw [her]; rfl⟩
  exact ⟨d, hd, List.mem_map.mpr ⟨e, he, rfl⟩⟩

/-- C4. Gathering never returns a partial world: when `World::new` returns a
world, every declared link was fetched and is in it and every walked file
was read and is in it; when it returns an error list, that list contains
the error of every failing link fetch and of every failing file read. -/
theorem worldNew_all_or_nothing (fetchF : Str → Except Str Str)
    (walk : Str → List (Except Str WEntry)) (absF readF : Str → Except Str Str)
    (root : Str) (links : List LinkDecl) (dirs : List DirDecl) :
    (∀ wd, World.new fetchF walk absF readF root links dirs = .ok wd →
        wd.root = root
      ∧ (∀ l ∈ links, ∃ g, fetchLink fetchF l = .ok g ∧ g ∈ wd.links)
      ∧ (∀ d ∈ dirs, ∀ e ∈ walkedFiles walk root d,
          ∃ g, gatherFile absF readF d e = .ok g ∧ g ∈ wd.files))
  ∧ (∀ es, World.new fetchF walk absF readF root links dirs = .error es →
        (∀ l ∈ links, ∀ er, fetchLink fetchF l = .error er → er ∈ es)
      ∧ (∀ d ∈ dirs, ∀ e ∈ walkedFiles walk root d, ∀ er,
          gatherFile absF readF d e = .error er → er ∈ es)) := by
  constructor
  · intro wd hw
    obtain ⟨hwd, hle, hfe⟩ := worldNew_ok_eq fetchF walk absF readF root links dirs wd hw
    subst hwd
    refine ⟨rfl, ?_, ?_⟩
    · intro l hl
      cases hfl : fetchLink fetchF l with
      | error er =>
        have : er ∈ (links.map (fetchLink fetchF)).filterMap errSide :=
          List.mem_filterMap.mpr ⟨fetchLink fetchF l, List.mem_map.mpr ⟨l, hl, rfl⟩,
            by rw [hfl]; rfl⟩
        rw [hle] at this
        exact absurd this (List.not_mem_nil er)
      | ok g =>
        refine ⟨g, rfl, List.mem_filterMap.mpr ?_⟩
        exact ⟨fetchLink fetchF l, List.mem_map.mpr ⟨l, hl, rfl⟩, by rw [hfl]; rfl⟩
    · intro d hd e he
      cases hfl : gatherFile absF readF d e with
      | error er =>
        have : er ∈ (dirs.flatMap fun d2 =>
            (walkedFiles walk root d2).map (gatherFile absF readF d2)).filterMap errSide := by
          refine List.mem_filterMap.mpr ⟨gatherFile absF readF d e, List.mem_flatMap.mpr ?_,
            by rw [hfl]; rfl⟩
          exact ⟨d, hd, List.mem_map.mpr ⟨e, he, rfl⟩⟩
        rw [hfe] at this
        exact absurd this (List.not_mem_nil er)
      | ok g =>
        refine ⟨g, rfl, List.mem_filterMap.mpr ?_⟩
        refine ⟨gatherFile absF readF d e, List.mem_flatMap.mpr ?_, by rw [hfl]; rfl⟩
        exact ⟨d, hd, List.mem_map.mpr ⟨e, he, rfl⟩⟩
  · intro es hw
    constructor
    · intro l hl er her
      exact worldNew_link_err_mem fetchF walk absF readF root links dirs es l er hw hl her
    · intro d hd e he er her
      exact worldNew_file_err_mem fetchF walk absF readF root links dirs es d e er hw hd he her

/-- A network oracle that always succeeds with fixed content. -/
def fetch1 : Str → Except Str Str := fun _ => .ok "data".toList

/-- A walk oracle yielding one regular file. -/
def walk1 : Str → List (Except Str WEntry) := fun _ => [.ok ⟨"/r/cfg/a".toList, true⟩]

/-- The identity `path::absolute` oracle. -/
def absId : Str → Except Str Str := fun p => .ok p

/-- A read oracle that always succeeds with fixed content. -/
def read1 : Str → Except Str Str := fun _ => .ok "x".toList

/-- A concrete link declaration without a digest. -/
def l1 : LinkDecl := ⟨"https://a".toList, "a.txt".toList, none, none⟩

/-- A concrete dir declaration. -/
def d1 : DirDecl := ⟨"cfg".toList, "/out".toList⟩

/-- The world gathered from `l1` and `d1` under the oracles above. -/
def world1 : World :=
  ⟨"/r".toList,
   [⟨"https://a".toList, "data".toList, "a.txt".toList, none, none⟩],
   [⟨"/r/cfg/a".toList, "x".toList, "/out".toList, "cfg".toList⟩]⟩

/-- Witness for C4: on a concrete one-link one-dir manifest where every
sub-operation succeeds, the declared link is fetched and present in the
returned world. -/
theorem worldNew_all_or_nothing_witness :
    ∃ g, fetchLink fetch1 l1 = .ok g ∧ g ∈ world1.links :=
  ((worldNew_all_or_nothing fetch1 walk1 absId read1 "/r".toList [l1] [d1]).1
    world1 (by decide)).2.1 l1 (by decide)

/-- A network oracle for runs without links. -/
def fetchU : Str → Except Str Str := fun _ => .error "unused".toList

/-- A walk oracle whose first item is a walk error (permission denied) and
whose second item is a readable regular file. -/
def walkE : Str → List (Except Str WEntry) := fun _ =>
  [.error "permission denied".toList, .ok ⟨"/r/d/f".toList, true⟩]

/-- The dir declaration walked by `walkE`. -/
def dE : DirDecl := ⟨"d".toList, "/out".toList⟩

/-- A read oracle that always fails. -/
def readFail : Str → Except Str Str := fun _ => .error "io".toList

/-- Counterexample to C5: the walk of `dE` produces the directory-walk error
`permission denied`, yet gathering succeeds with a world — no error list is
returned at all, so the walk error appears in no returned error list,
against the claim that every directory-walk error is collected. -/
theorem walk_error_dropped_cex :
    (walkE (pathJoin "/r".toList "d".toList)).head?
      = some (.error "permission denied".toList)
  ∧ World.new fetchU walkE absId read1 "/r".toList [] [dE]
      = .ok ⟨"/r".toList, [], [⟨"/r/d/f".toList, "x".toList, "/out".toList, "d".toList⟩]⟩ := by
  decide

/-- Value of `okSide` on an error. -/
@[simp] lemma okSide_error {ε α : Type} (e : ε) :
    okSide (α := α) (.error e) = none := rfl

/-- Value of `okSide` on a success. -/
@[simp] lemma okSide_ok {ε α : Type} (a : α) :
    okSide (ε := ε) (.ok a) = some a := rfl

/-- Filtering a list of results down to its successes does not change what
`filterMap okSide` extracts. -/
lemma filterMap_okSide_filter {ε α : Type} (l : List (Except ε α)) :
    (l.filter fun it => (okSide it).isSome).filterMap okSide = l.filterMap okSide := by
  induction l with
  | nil => rfl
  | cons x xs ih =>
    cases x with
    | error e => simpa [List.filter_cons, List.filterMap_cons] using ih
    | ok a => simp [List.filter_cons, List.filterMap_cons, ih]

/-- C5 (amended). During gathering the recursive walk silently skips failed
entries — `World::new` is unchanged when every walk error is removed from
the walk output, so directory-walk errors never influence the result nor
appear in any returned error list — while every file-read error is collected
independently per walked file and appears in the returned error list. -/
theorem walk_errors_skipped_reads_collected (fetchF : Str → Except Str Str)
    (walk : Str → List (Except Str WEntry)) (absF readF : Str → Except Str Str)
    (root : Str) (links : List LinkDecl) (dirs : List DirDecl) :
    World.new fetchF walk absF readF root links dirs
      = World.new fetchF (fun p => (walk p).filter fun it => (okSide it).isSome)
          absF readF root links dirs
  ∧ (∀ es, World.new fetchF walk absF readF root links dirs = .error es →
      ∀ d ∈ dirs, ∀ e ∈ walkedFiles walk root d, ∀ er,
        gatherFile absF readF d e = .error er → er ∈ es) := by
  constructor
  · have hwf : ∀ d, walkedFiles (fun p => (walk p).filter fun it => (okSide it).isSome)
        root d = walkedFiles walk root d := by
      intro d
      unfold walkedFiles
      rw [filterMap_okSide_filter]
    unfold World.new
    simp only [hwf]
  · intro es hw d hd e he er her
    exact worldNew_file_err_mem fetchF walk absF readF root links dirs es d e er hw hd he her

/-- Witness for C5 (amended): with a failing read, gathering is unaffected
by removing the walk error and the read error of the walked file is in the
returned error list. -/
theorem walk_errors_skipped_reads_collected_witness :
    World.new fetchU walkE absId readFail "/r".toList [] [dE]
      = World.new fetchU (fun p => (walkE p).filter fun it => (okSide it).isSome)
          absId readFail "/r".toList [] [dE]
  ∧ "failed to read path /r/d/f: io".toList
      ∈ ["failed to read path /r/d/f: io".toList] := by
  have t := walk_errors_skipped_reads_collected fetchU walkE absId readFail
    "/r".toList [] [dE]
  refine ⟨t.1, ?_⟩
  exact t.2 ["failed to read path /r/d/f: io".toList] (by decide) dE (by decide)
    ⟨"/r/d/f".toList, true⟩ (by decide) "failed to read path /r/d/f: io".toList (by decide)

end Dots
